import Mathlib

/-!
Verification of the activity-planning MCP server (events/places aggregation).

Shallow embedding of the Python sources:
  src/utils.py    - input validators (location, keyword, date range, coordinates)
  src/models.py   - Event / Place record shapes with pydantic range constraints
  src/places.py   - place parsing, filtering, sorting, truncation, type aliasing
  src/events.py   - event parsing and the event-search orchestrator
  src/server.py   - the Google-Calendar URL builder (dates parameter)

Conventions:
  - Python floats are modelled as Rat (only ordering/equality matter here).
  - Python None is modelled as Option.none.
  - A Python function that can raise is modelled as Except/Option valued;
    an uncaught exception is an .error / none result.
  - datetime values produced by strptime("%Y-%m-%d") are midnights; a
    "current moment" (datetime.now()) is a Moment: an ordinal day number
    plus a nonnegative intra-day offset.  Comparisons in the source between
    such midnights and now reduce to comparisons on these fields.
-/

deriving instance DecidableEq for Except

namespace ActivityPlanning

/-! ## Calendar dates (model of datetime date arithmetic) -/

structure Date where
  year : Nat
  month : Nat
  day : Nat
deriving DecidableEq, Repr

def isLeap (y : Nat) : Bool := (y % 4 == 0 && y % 100 != 0) || y % 400 == 0

def daysInMonth (y m : Nat) : Nat :=
  match m with
  | 2 => if isLeap y then 29 else 28
  | 4 => 30
  | 6 => 30
  | 9 => 30
  | 11 => 30
  | _ => 31

def yearLength (y : Nat) : Nat := if isLeap y then 366 else 365

def daysBeforeYear : Nat → Nat
  | 0 => 0
  | y + 1 => daysBeforeYear y + yearLength (y + 1)

def daysUpToMonth (y : Nat) : Nat → Nat
  | 0 => 0
  | m + 1 => daysUpToMonth y m + daysInMonth y (m + 1)

def toOrdinal (d : Date) : Nat :=
  daysBeforeYear (d.year - 1) + daysUpToMonth d.year (d.month - 1) + (d.day - 1)

def isValidDate (d : Date) : Bool :=
  1 ≤ d.year && 1 ≤ d.month && d.month ≤ 12 && 1 ≤ d.day && d.day ≤ daysInMonth d.year d.month

-- Model of `datetime.strptime(s, "%Y-%m-%d") + timedelta(days=1)` followed by
-- strftime: adding one day with month/year rollover.
def nextDay (d : Date) : Date :=
  if d.day < daysInMonth d.year d.month then ⟨d.year, d.month, d.day + 1⟩
  else if d.month < 12 then ⟨d.year, d.month + 1, 1⟩
  else ⟨d.year + 1, 1, 1⟩

-- Model of `datetime.strptime(s, "%Y-%m-%d")`, CPython semantics: %Y is exactly
-- four digits, %m is one or two digits with value 1..12, %d is one or two digits
-- with value 1..31; the datetime constructor then rejects day-of-month overflow
-- and years below MINYEAR = 1.  The whole string must be consumed.
def digitsToNat (l : List Char) : Nat :=
  l.foldl (fun a c => a * 10 + (c.toNat - 48)) 0

-- str.split("-") on a character list (structural recursion, so that concrete
-- inputs evaluate inside the kernel); empty components are preserved, as in
-- Python.
def splitOnDash : List Char → List (List Char)
  | [] => [[]]
  | c :: rest =>
    let r := splitOnDash rest
    if c = '-' then [] :: r
    else
      match r with
      | x :: xs => (c :: x) :: xs
      | [] => [[c]]

def parseDate (s : String) : Option Date :=
  match splitOnDash s.toList with
  | [yl, ml, dl] =>
    if yl.all (·.isDigit) ∧ yl.length = 4 ∧
        ml.all (·.isDigit) ∧ 1 ≤ ml.length ∧ ml.length ≤ 2 ∧
        dl.all (·.isDigit) ∧ 1 ≤ dl.length ∧ dl.length ≤ 2 then
      if 1 ≤ digitsToNat yl ∧ 1 ≤ digitsToNat ml ∧ digitsToNat ml ≤ 12 ∧
          1 ≤ digitsToNat dl ∧
          digitsToNat dl ≤ daysInMonth (digitsToNat yl) (digitsToNat ml) then
        some ⟨digitsToNat yl, digitsToNat ml, digitsToNat dl⟩
      else none
    else none
  | _ => none

/-! ## Moments (model of datetime.now() for the future-date check) -/

structure Moment where
  dayOrdinal : Nat
  intraDay : Nat
deriving DecidableEq, Repr

-- Model of `sd <= datetime.now()` where sd is the midnight of a parsed date:
-- a midnight is at or before `now` iff its day is earlier, or it is the same
-- day (the intra-day offset of `now` is always ≥ 0).
def midnightLE (d : Date) (now : Moment) : Bool :=
  decide (toOrdinal d < now.dayOrdinal) ||
    (decide (toOrdinal d = now.dayOrdinal) && decide (0 ≤ now.intraDay))

/-! ## src/utils.py -/

def pyWhitespace : List Char := [' ', '\t', '\n', '\r', Char.ofNat 11, Char.ofNat 12]

-- Model of str.strip() (ASCII whitespace; the validated inputs are ASCII).
def pyStrip (s : String) : String :=
  String.mk (((s.toList.dropWhile (· ∈ pyWhitespace)).reverse.dropWhile
    (· ∈ pyWhitespace)).reverse)

def get_invalid_chars : List Char :=
  ['<', '>', ':', '/', '\\', '|', '?', '*', Char.ofNat 123, Char.ofNat 125,
   '(', ')', '[', ']', '@', '%', '&', '$', '#', '^', '=', '+', Char.ofNat 96]

def validate_location (location : String) : Except String String :=
  let location := pyStrip location
  if location.isEmpty then .error "Location is required"
  else if location.length < 2 then .error "Location must be at least 2 characters long"
  else if location.length > 200 then .error "Location is too long"
  else if location.toList.any (fun c => c ∈ get_invalid_chars) then
    .error "Location contains invalid characters"
  else .ok location

def validate_keyword (keyword : String) : Except String String :=
  let keyword := pyStrip keyword
  if keyword.length > 200 then .error "Keyword is too long"
  else if keyword.toList.any (fun c => c ∈ get_invalid_chars) then
    .error "Keyword contains invalid characters"
  else .ok keyword

-- Source (src/utils.py lines 41-56): parse both strings with strptime
-- "%Y-%m-%d" (either failure raises the format error); then reject sd >= ed;
-- then reject sd <= datetime.now(); otherwise return the ORIGINAL strings.
def validate_start_end_dates (start_date end_date : String) (now : Moment) :
    Except String (String × String) :=
  match parseDate start_date, parseDate end_date with
  | some sd, some ed =>
    if toOrdinal ed ≤ toOrdinal sd then .error "Start date must be before end date"
    else if midnightLE sd now then .error "Start date must be in the future"
    else .ok (start_date, end_date)
  | _, _ => .error "Invalid date format. Use YYYY-MM-DD"

def isError {ε α : Type} : Except ε α → Bool
  | .error _ => true
  | .ok _ => false

/-! ## src/models.py -/

structure Place where
  place_id : String
  name : String
  address : String
  latitude : Option Rat := none
  longitude : Option Rat := none
  rating : Option Rat := none
  user_ratings_total : Int := 0
  price_level : Option Int := none
  types : List String := []
  is_open_now : Option Bool := none
  photo_reference : Option String := none
deriving DecidableEq, Repr

def ratingInRange (r : Option Rat) : Bool :=
  r.all fun x => decide (0 ≤ x) && decide (x ≤ 5)

def priceLevelInRange (l : Option Int) : Bool :=
  l.all fun x => decide (0 ≤ x) && decide (x ≤ 4)

-- Pydantic construction of a Place: Field(ge=0, le=5) on rating and
-- Field(ge=0, le=4) on price_level; a violation raises ValidationError,
-- which is a ValueError.  latitude/longitude/photo_reference are assigned
-- after construction in the source and carry no constraints
-- (validate_assignment is off, so later assignments are not checked).
def Place.construct (place_id name address : String) (rating : Option Rat)
    (user_ratings_total : Int) (price_level : Option Int) (types : List String)
    (is_open_now : Option Bool) : Except String Place :=
  if ratingInRange rating && priceLevelInRange price_level then
    .ok { place_id, name, address, rating, user_ratings_total, price_level,
          types, is_open_now }
  else .error "ValidationError"

structure Event where
  name : String
  id : String
  url : Option String := none
  start_date : Option Date := none
  start_time : Option String := none
  venue_name : Option String := none
  venue_address : Option String := none
  venue_city : Option String := none
  price_min : Option Rat := none
  price_max : Option Rat := none
  category : Option String := none
  genre : Option String := none
deriving DecidableEq, Repr

structure EventSearch where
  city : String
  keyword : Option String := none
  start_date : String
  end_date : String
  radius : Int := 50
  unit : String := "miles"
  size : Int := 20
deriving DecidableEq, Repr

/-! ## src/places.py: response parsing -/

-- One upstream place record.  Each `Option` at the outer level is key
-- presence in the JSON object.  geometry_location is `some` iff "geometry"
-- is present with a "location" inside; opening_hours_open_now is `some v`
-- iff "opening_hours" is present, v being its .get("open_now");
-- photos is `some l` iff "photos" is present, each entry's
-- .get("photo_reference") recorded.
structure LatLngData where
  lat : Option Rat
  lng : Option Rat
deriving DecidableEq, Repr

structure PlaceData where
  place_id : Option String
  name : Option String
  vicinity : Option String
  rating : Option Rat
  user_ratings_total : Option Int
  price_level : Option Int
  types : Option (List String)
  geometry_location : Option LatLngData
  opening_hours_open_now : Option (Option Bool)
  photos : Option (List (Option String))
deriving DecidableEq, Repr

structure PlacesResponse where
  results : List PlaceData
deriving DecidableEq, Repr

-- parse_single_place (src/places.py lines 147-186): required subscripts
-- place_data["place_id"], place_data["name"] raise KeyError when absent,
-- caught inside the function (returns None, modelled .ok none); the pydantic
-- range ValidationError propagates to the caller (modelled .error).
def applyGeometry (d : PlaceData) (p : Place) : Place :=
  match d.geometry_location with
  | some loc => { p with latitude := loc.lat, longitude := loc.lng }
  | none => p

def applyOpenNow (d : PlaceData) (p : Place) : Place :=
  match d.opening_hours_open_now with
  | some v => { p with is_open_now := v }
  | none => p

def applyPhoto (d : PlaceData) (p : Place) : Place :=
  match d.photos with
  | some (ref :: _) => { p with photo_reference := ref }
  | _ => p

-- The three post-construction assignments of parse_single_place, in source
-- order (geometry, opening hours, first photo).
def applyExtras (d : PlaceData) (p : Place) : Place :=
  applyPhoto d (applyOpenNow d (applyGeometry d p))

def parse_single_place (d : PlaceData) : Except String (Option Place) :=
  match d.place_id, d.name with
  | some pid, some nm =>
    match Place.construct pid nm (d.vicinity.getD "") d.rating
        (d.user_ratings_total.getD 0) d.price_level (d.types.getD []) none with
    | .error e => .error e
    | .ok p => .ok (some (applyExtras d p))
  | _, _ => .ok none

-- The loop body of parse_places_response with its
-- `except (KeyError, ValueError): continue` handler and the `if place:`
-- truthiness test (a Place object is always truthy).
def placeRecordOutcome (d : PlaceData) : Option Place :=
  match parse_single_place d with
  | .ok (some p) => some p
  | _ => none

def parse_places_response (data : PlacesResponse) : List Place :=
  data.results.filterMap placeRecordOutcome

/-! ## src/places.py: search_places filter/sort/truncate stage -/

def clampRating (r : Rat) : Rat := min (max r 1) 5

def clampPriceLevel (v : Int) : Int := min (max v 0) 4

-- `p.rating or 0`: the rating when it is truthy (present and nonzero),
-- otherwise 0.
def ratingKey (p : Place) : Rat :=
  match p.rating with
  | some r => if r == 0 then 0 else r
  | none => 0

-- list.sort(key=..., reverse=True) is a stable sort that keeps a before b
-- whenever key(a) >= key(b).
def ratingSortLE (a b : Place) : Bool := decide (ratingKey b ≤ ratingKey a)

-- `if min_rating: places = [p for p in places if p.rating and p.rating >= min_rating]`
def applyMinRatingFilter (m : Option Rat) (places : List Place) : List Place :=
  match m with
  | some mr =>
    if mr == 0 then places
    else places.filter fun p =>
      match p.rating with
      | some r => !(r == 0) && decide (mr ≤ r)
      | none => false
  | none => places

-- `if price_level is not None: places = [p for p in places if p.price_level == price_level]`
def applyPriceLevelFilter (v : Option Int) (places : List Place) : List Place :=
  match v with
  | some pl => places.filter fun p => p.price_level == some pl
  | none => places

-- search_places after the fetch (src/places.py lines 44-48 and 61-70), as a
-- function of the parsed batch and the raw optional filters.
-- `if min_rating:` is a truthiness test: None and 0.0 both skip the clamping
-- and the filter; `if price_level is not None:` only skips None.
def clampMinRatingParam (m : Option Rat) : Option Rat :=
  match m with
  | some r => if r == 0 then some r else some (clampRating r)
  | none => none

def searchFilterStage (fetched : List Place) (min_rating : Option Rat)
    (price_level : Option Int) : List Place :=
  applyPriceLevelFilter (price_level.map clampPriceLevel)
    (applyMinRatingFilter (clampMinRatingParam min_rating) fetched)

def search_places_post (fetched : List Place) (min_rating : Option Rat)
    (price_level : Option Int) : List Place :=
  ((searchFilterStage fetched min_rating price_level).mergeSort ratingSortLE).take 20

/-! ## src/places.py: validate_place_type -/

def type_mapping : List (String × String) := [
  ("restaurant", "restaurant"), ("restaurants", "restaurant"),
  ("cafe", "cafe"), ("coffee", "cafe"),
  ("bar", "bar"), ("pub", "bar"),
  ("park", "park"), ("parks", "park"), ("hiking", "park"),
  ("hiking_area", "park"), ("trail", "park"),
  ("museum", "museum"), ("museums", "museum"),
  ("art_gallery", "art_gallery"), ("gallery", "art_gallery"),
  ("shopping", "shopping_mall"), ("mall", "shopping_mall"),
  ("store", "store"),
  ("tourist_attraction", "tourist_attraction"), ("attraction", "tourist_attraction"),
  ("night_club", "night_club"), ("club", "night_club"),
  ("gym", "gym"), ("fitness", "gym"),
  ("spa", "spa"),
  ("movie_theater", "movie_theater"), ("cinema", "movie_theater"),
  ("zoo", "zoo"), ("aquarium", "aquarium"), ("amusement_park", "amusement_park"),
  ("stadium", "stadium"),
  ("lodging", "lodging"), ("hotel", "lodging")]

def valid_types : List String := type_mapping.map Prod.snd

-- str.lower() restricted to ASCII (every table key is ASCII, so the Unicode
-- cases Python also lowers cannot reach a table match anyway).
def pyLowerChar (c : Char) : Char :=
  if 'A' ≤ c ∧ c ≤ 'Z' then Char.ofNat (c.toNat + 32) else c

def pyLower (s : String) : String := String.mk (s.toList.map pyLowerChar)

-- validate_place_type (src/places.py lines 189-253): normalize through the
-- alias table; otherwise accept a string that is already a canonical value;
-- otherwise raise ValueError (modelled none).
def validate_place_type (place_type : String) : Option String :=
  let t := pyStrip (pyLower place_type)
  match type_mapping.lookup t with
  | some v => some v
  | none => if t ∈ valid_types then some t else none

/-! ## src/events.py: response parsing -/

structure StartData where
  localDate : Option String
  localTime : Option String
deriving DecidableEq, Repr

structure VenueData where
  name : Option String
  address_line1 : Option String
  city_name : Option String
deriving DecidableEq, Repr

structure PriceRangeData where
  minPrice : Option Rat
  maxPrice : Option Rat
deriving DecidableEq, Repr

-- segment_name is `some s` iff "segment" is in the classification with a
-- "name" key holding s; likewise genre_name.
structure ClassificationData where
  segment_name : Option String
  genre_name : Option String
deriving DecidableEq, Repr

structure EventData where
  name : Option String
  id : Option String
  url : Option String
  dates_start : Option StartData
  venues : Option (List VenueData)
  priceRanges : Option (List PriceRangeData)
  classifications : Option (List ClassificationData)
deriving DecidableEq, Repr

structure EventsResponse where
  embedded_events : Option (List EventData)
deriving DecidableEq, Repr

-- The dates block (src/events.py lines 90-98).  Once dates.start exists,
-- start["localTime"] is subscripted unconditionally: its absence raises
-- KeyError and skips the record (none).  A present but unparsable localDate
-- raises ValueError from strptime: record skipped (none).
def datesStep (d : EventData) (e : Event) : Option Event :=
  match d.dates_start with
  | some st =>
    match st.localDate with
    | some ld =>
      match parseDate ld with
      | some dt => st.localTime.map fun t =>
          { e with start_date := some dt, start_time := some t }
      | none => none
    | none => st.localTime.map fun t => { e with start_time := some t }
  | none => some e

def applyVenue (v : VenueData) (e : Event) : Event :=
  let e := match v.name with | some s => { e with venue_name := some s } | none => e
  let e := match v.address_line1 with | some s => { e with venue_address := some s } | none => e
  match v.city_name with | some s => { e with venue_city := some s } | none => e

-- venues (src/events.py lines 100-111): the guard checks key presence only,
-- so venues[0] on an empty list raises IndexError, which the batch handler
-- (KeyError, ValueError) does NOT catch.
def venuesStep (d : EventData) (e : Event) : Except String Event :=
  match d.venues with
  | some [] => .error "IndexError"
  | some (v :: _) => .ok (applyVenue v e)
  | none => .ok e

-- priceRanges (lines 113-116): guarded by presence AND truthiness (non-empty
-- list); price_range["min"] / ["max"] are required subscripts (KeyError skips
-- the record).
def priceStep (d : EventData) (e : Event) : Option Event :=
  match d.priceRanges with
  | some (pr :: _) =>
    match pr.minPrice, pr.maxPrice with
    | some lo, some hi => some { e with price_min := some lo, price_max := some hi }
    | _, _ => none
  | _ => some e

def applyClassification (c : ClassificationData) (e : Event) : Event :=
  let e := match c.segment_name with | some s => { e with category := some s } | none => e
  match c.genre_name with | some s => { e with genre := some s } | none => e

def classificationsStep (d : EventData) (e : Event) : Event :=
  match d.classifications with
  | some (c :: _) => applyClassification c e
  | _ => e

-- One iteration of the loop body of parse_events_response (src/events.py
-- lines 81-132).  Event(name=d["name"], id=d["id"], url=d["url"]) subscripts
-- all three keys: any absence raises KeyError, caught by the loop handler
-- (record skipped, .ok none).  Pydantic's URL-format validation of the url
-- value is not modelled (no claim depends on it).
def parse_single_event (d : EventData) : Except String (Option Event) :=
  match d.name, d.id, d.url with
  | some nm, some i, some u =>
    match datesStep d { name := nm, id := i, url := some u } with
    | none => .ok none
    | some e =>
      match venuesStep d e with
      | .error err => .error err
      | .ok e =>
        match priceStep d e with
        | none => .ok none
        | some e => .ok (some (classificationsStep d e))
  | _, _, _ => .ok none

def parse_events_list : List EventData → Except String (List Event)
  | [] => .ok []
  | d :: rest =>
    match parse_single_event d with
    | .error err => .error err
    | .ok none => parse_events_list rest
    | .ok (some e) => (parse_events_list rest).map fun evs => e :: evs

-- parse_events_response (src/events.py lines 70-134): a response without
-- _embedded.events yields the empty list.
def parse_events_response (data : EventsResponse) : Except String (List Event) :=
  match data.embedded_events with
  | none => .ok []
  | some evs => parse_events_list evs

/-! ## src/events.py: search_events and fetch_events_by_date -/

def padNat (width n : Nat) : String :=
  let s := toString n
  String.mk (List.replicate (width - s.length) '0') ++ s

-- strftime("%Y-%m-%d") with zero padding.
def formatDate (d : Date) : String :=
  padNat 4 d.year ++ "-" ++ padNat 2 d.month ++ "-" ++ padNat 2 d.day

structure EventRequestParams where
  city : String
  startDateTime : String
  endDateTime : String
  size : Int
  unit : String
  radius : Int
  keyword : Option String
deriving DecidableEq, Repr

-- The request-building prefix of search_events (src/events.py lines 40-55):
-- re-parse search.end_date, add one calendar day, write it back into
-- search.end_date (the source mutates the EventSearch object), then build the
-- params dict.  A strptime failure raises ValueError (modelled none).
def build_event_request (search : EventSearch) :
    Option (EventSearch × EventRequestParams) :=
  (parseDate search.end_date).map fun ed =>
    let search := { search with end_date := formatDate (nextDay ed) }
    (search,
     { city := search.city,
       startDateTime := search.start_date ++ "T00:00:00Z",
       endDateTime := search.end_date ++ "T23:59:59Z",
       size := search.size, unit := search.unit, radius := search.radius,
       keyword := search.keyword })

-- search_events (src/events.py lines 36-67).  The strptime of search.end_date
-- happens before the try block, so its failure propagates (.error).  The
-- fetch-and-parse happens inside `try ... except Exception`, which swallows
-- every failure (network errors and IndexError from parsing alike), prints,
-- and falls off the end of the function: Python returns None (.ok none).
def search_events (search : EventSearch)
    (fetchOutcome : Except String EventsResponse) :
    Except String (Option (List Event)) :=
  match build_event_request search with
  | none => .error "ValueError: strptime"
  | some _ =>
    match fetchOutcome with
    | .ok data =>
      match parse_events_response data with
      | .ok evs => .ok (some evs)
      | .error _ => .ok none
    | .error _ => .ok none

-- `if keyword: keyword = validate_keyword(keyword)` is a truthiness test: an
-- absent or empty-string keyword skips validation.
def keywordCheck (keyword : Option String) : Except String (Option String) :=
  match keyword with
  | some k => if k.isEmpty then .ok (some k) else (validate_keyword k).map some
  | none => .ok none

-- fetch_events_by_date (src/events.py lines 9-33).
def fetch_events_by_date (city start_date end_date : String)
    (keyword : Option String) (now : Moment)
    (fetchOutcome : Except String EventsResponse) :
    Except String (Option (List Event)) := do
  let city ← validate_location city
  let keyword ← keywordCheck keyword
  let (sd, ed) ← validate_start_end_dates start_date end_date now
  search_events
    { city := city, keyword := keyword, start_date := sd, end_date := ed, size := 30 }
    fetchOutcome

/-! ## src/server.py: make_gcal_url dates parameter -/

-- str.replace(old, new): left-to-right, non-overlapping.  (Python's replace
-- with an empty pattern inserts between characters; the patterns used by the
-- source are never empty, and the empty case here is the identity.)
-- The fuel argument only makes the recursion structural, so concrete inputs
-- evaluate inside the kernel: every step consumes at least one character and
-- one unit of fuel, so with fuel = length of the input the zero-fuel case is
-- unreachable.
def listReplaceFuel (old new : List Char) : Nat → List Char → List Char
  | _, [] => []
  | 0, s => s
  | fuel + 1, c :: rest =>
    if old.isPrefixOf (c :: rest) ∧ old ≠ [] then
      new ++ listReplaceFuel old new fuel ((c :: rest).drop old.length)
    else c :: listReplaceFuel old new fuel rest

def pyReplace (s old new : String) : String :=
  String.mk (listReplaceFuel old.toList new.toList s.toList.length s.toList)

-- One timestamp of the dates parameter (src/server.py line 120):
-- s.replace('-', '').replace(':', '').replace('+00:00', 'Z').
def gcalTimestamp (s : String) : String :=
  pyReplace (pyReplace (pyReplace s "-" "") ":" "") "+00:00" "Z"

def make_gcal_url_dates (start_iso end_iso : String) : String :=
  gcalTimestamp start_iso ++ "/" ++ gcalTimestamp end_iso

/-! ## Concrete records used by witnesses and counterexamples -/

def pNoRating : Place := { place_id := "p1", name := "NoRating", address := "" }

def pR4 : Place := { place_id := "p2", name := "R4", address := "", rating := some 4 }

def pPL2 : Place :=
  { place_id := "p4", name := "PL2", address := "", rating := some 4, price_level := some 2 }

def recNoUrl : EventData :=
  { name := some "X", id := some "1", url := none,
    dates_start := none, venues := none, priceRanges := none, classifications := none }

def recNoId : EventData :=
  { name := some "Y", id := none, url := some "https://e.example/a",
    dates_start := none, venues := none, priceRanges := none, classifications := none }

def recGood : EventData :=
  { name := some "Concert", id := some "e2", url := some "https://e.example/b",
    dates_start := none, venues := none, priceRanges := none, classifications := none }

def evGood : Event := { name := "Concert", id := "e2", url := some "https://e.example/b" }

def placeBadRating : PlaceData :=
  { place_id := some "b", name := some "Bad", vicinity := none, rating := some 7,
    user_ratings_total := none, price_level := none, types := none,
    geometry_location := none, opening_hours_open_now := none, photos := none }

def placeGoodData : PlaceData :=
  { place_id := some "g", name := some "Good", vicinity := some "1 Main St",
    rating := some 4, user_ratings_total := some 12, price_level := some 2,
    types := some ["restaurant"], geometry_location := none,
    opening_hours_open_now := none, photos := none }

-- A current moment on 0005-01-01 (the validator compares only day ordinals
-- and a nonnegative intra-day offset, and %Y parses exactly four digits, so
-- small years keep kernel evaluation shallow).
def momentY5Jan1 : Moment := ⟨toOrdinal ⟨5, 1, 1⟩, 3600⟩

def momentY5Jan10 : Moment := ⟨toOrdinal ⟨5, 1, 10⟩, 3600⟩

def searchY5 : EventSearch :=
  { city := "Paris", start_date := "0005-01-10", end_date := "0005-01-12", size := 30 }

/-! ## Helper lemmas -/

theorem ratingSortLE_trans (a b c : Place) :
    ratingSortLE a b → ratingSortLE b c → ratingSortLE a c := by
  simp only [ratingSortLE, decide_eq_true_eq]
  intro h1 h2
  exact le_trans h2 h1

theorem ratingSortLE_total (a b : Place) : ratingSortLE a b || ratingSortLE b a := by
  simp only [ratingSortLE, Bool.or_eq_true, decide_eq_true_eq]
  exact le_total (ratingKey b) (ratingKey a)

theorem mergeSort_rating_sorted (l : List Place) :
    (l.mergeSort ratingSortLE).Pairwise (fun a b => ratingKey b ≤ ratingKey a) := by
  have h := List.sorted_mergeSort ratingSortLE_trans ratingSortLE_total l
  exact h.imp fun hab => by simpa [ratingSortLE] using hab

theorem mergeSort_rating_stable (l : List Place) (r : Rat) :
    (l.mergeSort ratingSortLE).filter (fun p => ratingKey p == r)
      = l.filter (fun p => ratingKey p == r) := by
  have hperm : List.Perm (l.mergeSort ratingSortLE) l := List.mergeSort_perm l _
  have hpair : (l.filter (fun p => ratingKey p == r)).Pairwise
      (fun a b => ratingSortLE a b = true) := by
    apply List.pairwise_of_forall_mem_list
    intro a ha b hb
    have ha' := (List.mem_filter.mp ha).2
    have hb' := (List.mem_filter.mp hb).2
    simp only [beq_iff_eq] at ha' hb'
    simp [ratingSortLE, ha', hb']
  have hsub : List.Sublist (l.filter (fun p => ratingKey p == r)) (l.mergeSort ratingSortLE) :=
    List.sublist_mergeSort ratingSortLE_trans ratingSortLE_total hpair
      (List.filter_sublist l)
  have hsub2 : List.Sublist (l.filter (fun p => ratingKey p == r))
      ((l.mergeSort ratingSortLE).filter (fun p => ratingKey p == r)) := by
    have := hsub.filter (fun p => ratingKey p == r)
    rw [List.filter_filter] at this
    simpa only [Bool.and_self] using this
  have hlen : ((l.mergeSort ratingSortLE).filter (fun p => ratingKey p == r)).length
      = (l.filter (fun p => ratingKey p == r)).length :=
    (hperm.filter _).length_eq
  exact (hsub2.eq_of_length hlen.symm).symm

theorem applyMinRatingFilter_sublist (m : Option Rat) (l : List Place) :
    List.Sublist (applyMinRatingFilter m l) l := by
  unfold applyMinRatingFilter
  split
  · split
    · exact List.Sublist.refl l
    · exact List.filter_sublist l
  · exact List.Sublist.refl l

theorem applyPriceLevelFilter_sublist (v : Option Int) (l : List Place) :
    List.Sublist (applyPriceLevelFilter v l) l := by
  unfold applyPriceLevelFilter
  split
  · exact List.filter_sublist l
  · exact List.Sublist.refl l

theorem searchFilterStage_sublist (fetched : List Place) (mr : Option Rat)
    (pl : Option Int) : List.Sublist (searchFilterStage fetched mr pl) fetched :=
  (applyPriceLevelFilter_sublist _ _).trans (applyMinRatingFilter_sublist _ _)

theorem search_places_post_singleton (p : Place) (mr : Option Rat) (pl : Option Int) :
    search_places_post [p] mr pl = searchFilterStage [p] mr pl := by
  have h := searchFilterStage_sublist [p] mr pl
  rcases List.sublist_singleton.mp h with h1 | h1 <;>
    simp [search_places_post, h1]

theorem mem_search_places_post {p : Place} {fetched : List Place} {mr : Option Rat}
    {pl : Option Int} (h : p ∈ search_places_post fetched mr pl) :
    p ∈ searchFilterStage fetched mr pl := by
  have h1 : p ∈ (searchFilterStage fetched mr pl).mergeSort ratingSortLE :=
    (List.take_sublist _ _).mem h
  exact List.mem_mergeSort.mp h1

theorem parseDate_isValid {s : String} {d : Date} (h : parseDate s = some d) :
    isValidDate d = true := by
  unfold parseDate at h
  split at h
  · split at h
    · split at h
      · rename_i hrange
        simp only [Option.some.injEq] at h
        subst h
        simp only [isValidDate, Bool.and_eq_true, decide_eq_true_eq]
        exact ⟨⟨⟨⟨hrange.1, hrange.2.1⟩, hrange.2.2.1⟩, hrange.2.2.2.1⟩, hrange.2.2.2.2⟩
      · exact absurd h (by simp)
    · exact absurd h (by simp)
  · exact absurd h (by simp)

theorem daysUpToMonth_twelve (y : Nat) : daysUpToMonth y 12 = yearLength y := by
  cases h : isLeap y <;>
    simp [daysUpToMonth, daysInMonth, yearLength, h]

theorem toOrdinal_nextDay (d : Date) (h : isValidDate d = true) :
    toOrdinal (nextDay d) = toOrdinal d + 1 := by
  simp only [isValidDate, Bool.and_eq_true, decide_eq_true_eq] at h
  obtain ⟨⟨⟨⟨hy, hm1⟩, hm2⟩, hd1⟩, hd2⟩ := h
  unfold nextDay
  split
  · simp only [toOrdinal]
    omega
  · split
    · rename_i hlt hm12
      have hde : d.day = daysInMonth d.year d.month := by omega
      simp only [toOrdinal]
      have hmm : d.month - 1 + 1 = d.month := by omega
      have hstep : daysUpToMonth d.year d.month
          = daysUpToMonth d.year (d.month - 1) + daysInMonth d.year d.month := by
        conv_lhs => rw [← hmm]
        rw [daysUpToMonth]
        rw [hmm]
      simp only [Nat.add_sub_cancel]
      omega
    · rename_i hlt hm12
      have hm : d.month = 12 := by omega
      have hde : d.day = daysInMonth d.year d.month := by omega
      simp only [toOrdinal, hm] at *
      have h11 : daysUpToMonth d.year 12 = daysUpToMonth d.year 11 + daysInMonth d.year 12 := by
        rw [daysUpToMonth]
      have h12 := daysUpToMonth_twelve d.year
      have hyy : d.year - 1 + 1 = d.year := by omega
      have hby : daysBeforeYear d.year = daysBeforeYear (d.year - 1) + yearLength d.year := by
        conv_lhs => rw [← hyy]
        rw [daysBeforeYear]
        rw [hyy]
      simp only [Nat.add_sub_cancel, Nat.sub_self]
      simp only [daysInMonth] at hde
      have hz : daysUpToMonth (d.year + 1) 0 = 0 := rfl
      have h11n : (12 : Nat) - 1 = 11 := rfl
      rw [h11n]
      omega

theorem midnightLE_iff (d : Date) (now : Moment) :
    midnightLE d now = true ↔ toOrdinal d ≤ now.dayOrdinal := by
  simp only [midnightLE, Bool.or_eq_true, Bool.and_eq_true, decide_eq_true_eq]
  omega

theorem lookup_snd_mem (l : List (String × String)) (k v : String)
    (h : l.lookup k = some v) : v ∈ l.map Prod.snd := by
  induction l with
  | nil => simp [List.lookup] at h
  | cons hd tl ih =>
    rw [List.lookup] at h
    by_cases hk : k == hd.fst
    · rw [hk] at h
      simp only [Option.some.injEq] at h
      subst h
      simp
    · rw [Bool.of_not_eq_true hk] at h
      simp only [List.map_cons, List.mem_cons]
      exact Or.inr (ih h)

-- A successful date-range validation returns the original strings, and both
-- strings parse to dates with start strictly before end and start strictly
-- after the current day.
theorem validate_dates_ok {s e : String} {now : Moment} {a b : String}
    (h : validate_start_end_dates s e now = .ok (a, b)) :
    a = s ∧ b = e ∧ ∃ ds de, parseDate s = some ds ∧ parseDate e = some de ∧
      toOrdinal ds < toOrdinal de ∧ now.dayOrdinal < toOrdinal ds := by
  unfold validate_start_end_dates at h
  split at h
  · rename_i ds de hds hde
    split at h
    · exact absurd h (by simp)
    · split at h
      · exact absurd h (by simp)
      · rename_i h1 h2
        simp only [Except.ok.injEq, Prod.mk.injEq] at h
        refine ⟨h.1.symm, h.2.symm, ds, de, hds, hde, by omega, ?_⟩
        have := (not_iff_not.mpr (midnightLE_iff ds now)).mp (by simpa using h2)
        omega
  · exact absurd h (by simp)

/-! ## Claim C2 -/

/-- Claim C2 (evaluation at the claimed input): the replacement chain strips
the dashes and colons first, so the later replace of the literal plus-zero-
zero-colon-zero-zero offset can never match (its colons are already gone);
the dates parameter for the claimed timestamps therefore ends in the numeric
offset, not in Z as the claim states. -/
theorem C2_gcal_dates_eval :
    make_gcal_url_dates "2025-09-15T10:00:00+00:00" "2025-09-15T12:00:00+00:00"
        = "20250915T100000+0000/20250915T120000+0000" ∧
    make_gcal_url_dates "2025-09-15T10:00:00+00:00" "2025-09-15T12:00:00+00:00"
        ≠ "20250915T100000Z/20250915T120000Z" := by
  constructor
  · decide
  · decide

/-! ## Claim C3 -/

/-- Claim C3 (evaluation at the failing input): an event record carrying only
name and id is skipped because Event construction subscripts the url key
(KeyError), contradicting the claim that url is optional; a record missing id
is skipped while the rest of the batch is still parsed, as the claim's second
half states. -/
theorem C3_url_required_eval :
    parse_single_event recNoUrl = .ok none ∧
    parse_events_response ⟨some [recNoUrl, recGood]⟩ = .ok [evGood] ∧
    parse_events_response ⟨some [recNoId, recGood]⟩ = .ok [evGood] := by
  refine ⟨by decide, by decide, by decide⟩

/-! ## Claim C4 -/

/-- Claim C4 as amended: for every input that passes validation, a failure of
the fetch step is swallowed by search_events (the call does not propagate the
error) and the call returns Python None - not a list - so the original
claim's "empty result list" is wrong. -/
theorem C4_fetch_failure_swallowed (city sdS edS : String) (kw : Option String)
    (now : Moment) (e : String) (c : String) (k : Option String)
    (ab : String × String)
    (h1 : validate_location city = .ok c)
    (h2 : keywordCheck kw = .ok k)
    (h3 : validate_start_end_dates sdS edS now = .ok ab) :
    fetch_events_by_date city sdS edS kw now (.error e) = .ok none := by
  obtain ⟨a, b⟩ := ab
  obtain ⟨ha, hb, ds, de, hds, hde, _, _⟩ := validate_dates_ok h3
  rw [← hb] at hde
  rw [← ha, ← hb] at h3
  rw [← ha, ← hb]
  unfold fetch_events_by_date
  rw [show (do
        let city ← validate_location city
        let keyword ← keywordCheck kw
        let (sd, ed) ← validate_start_end_dates a b now
        search_events
          { city := city, keyword := keyword, start_date := sd, end_date := ed, size := 30 }
          (Except.error e) : Except String (Option (List Event)))
      = search_events
          { city := c, keyword := k, start_date := a, end_date := b, size := 30 }
          (Except.error e) from by
    rw [h1, h2, h3]
    rfl]
  unfold search_events build_event_request
  rw [hde]
  simp [Option.map]

/-- Claim C4 counterexample: at a concrete validated input with a failing
fetch, fetch_events_by_date returns ok-none (Python None), which is not the
ok-some-empty-list result the claim asserts. -/
theorem C4_counterexample :
    fetch_events_by_date "Paris" "0005-01-10" "0005-01-12" none momentY5Jan1
        (.error "boom") = .ok none ∧
    (Except.ok none : Except String (Option (List Event))) ≠ .ok (some []) := by
  constructor
  · decide
  · decide

/-- Claim C4 witness: the amended theorem applied at a concrete input. -/
theorem C4_witness :
    validate_location "Paris" = .ok "Paris" ∧
    keywordCheck none = .ok none ∧
    validate_start_end_dates "0005-01-10" "0005-01-12" momentY5Jan1
        = .ok ("0005-01-10", "0005-01-12") ∧
    fetch_events_by_date "Paris" "0005-01-10" "0005-01-12" none momentY5Jan1
        (.error "net down") = .ok none :=
  ⟨by decide, by decide, by decide,
    C4_fetch_failure_swallowed "Paris" "0005-01-10" "0005-01-12" none momentY5Jan1
      "net down" "Paris" none ("0005-01-10", "0005-01-12")
      (by decide) (by decide) (by decide)⟩

/-! ## Claim C6 -/

/-- Claim C6: for every validated event search, the validator hands back the
caller's strings unchanged, and the end date placed in the upstream request
parameters is the caller's end date advanced by exactly one calendar day
(its day ordinal is the caller's end date's ordinal plus one); the extension
happens in the request builder only. -/
theorem C6_end_date_plus_one (startS endS : String) (now : Moment)
    (sd ed : String) (search : EventSearch)
    (hval : validate_start_end_dates startS endS now = .ok (sd, ed))
    (hs : search.end_date = ed) :
    sd = startS ∧ ed = endS ∧
    ∃ d req, parseDate endS = some d ∧
      build_event_request search = some req ∧
      req.2.endDateTime = formatDate (nextDay d) ++ "T23:59:59Z" ∧
      toOrdinal (nextDay d) = toOrdinal d + 1 := by
  obtain ⟨ha, hb, ds, de, hds, hde, _, _⟩ := validate_dates_ok hval
  refine ⟨ha, hb, de, ?_⟩
  have hsearch : parseDate search.end_date = some de := by rw [hs, hb]; exact hde
  refine ⟨({ search with end_date := formatDate (nextDay de) },
    { city := search.city,
      startDateTime := search.start_date ++ "T00:00:00Z",
      endDateTime := formatDate (nextDay de) ++ "T23:59:59Z",
      size := search.size, unit := search.unit, radius := search.radius,
      keyword := search.keyword }), hde, ?_, rfl,
    toOrdinal_nextDay de (parseDate_isValid hde)⟩
  unfold build_event_request
  rw [hsearch]
  rfl

/-- Claim C6 witness: the theorem applied to a concrete validated search. -/
theorem C6_witness :
    validate_start_end_dates "0005-01-10" "0005-01-12" momentY5Jan1
        = .ok ("0005-01-10", "0005-01-12") ∧
    searchY5.end_date = "0005-01-12" ∧
    ("0005-01-10" = "0005-01-10" ∧ "0005-01-12" = "0005-01-12" ∧
      ∃ d req, parseDate "0005-01-12" = some d ∧
        build_event_request searchY5 = some req ∧
        req.2.endDateTime = formatDate (nextDay d) ++ "T23:59:59Z" ∧
        toOrdinal (nextDay d) = toOrdinal d + 1) := by
  refine ⟨by decide, rfl, ?_⟩
  exact C6_end_date_plus_one "0005-01-10" "0005-01-12" momentY5Jan1
    "0005-01-10" "0005-01-12" searchY5 (by decide) rfl

/-! ## Claim C7 -/

/-- Claim C7: the date-range validator fails exactly when one of the strings
does not parse as a calendar date, or the start is not strictly before the
end, or the start's midnight is not strictly after the current moment; and in
particular a start date falling on the current day fails. -/
theorem C7_validator_failure_conditions (startS endS : String) (now : Moment) :
    (isError (validate_start_end_dates startS endS now) = true ↔
      parseDate startS = none ∨ parseDate endS = none ∨
      ∃ ds de, parseDate startS = some ds ∧ parseDate endS = some de ∧
        (toOrdinal de ≤ toOrdinal ds ∨ toOrdinal ds ≤ now.dayOrdinal)) ∧
    (∀ ds, parseDate startS = some ds → toOrdinal ds = now.dayOrdinal →
      isError (validate_start_end_dates startS endS now) = true) := by
  constructor
  · cases hs : parseDate startS with
    | none =>
      constructor
      · intro h
        exact Or.inl rfl
      · intro h
        simp [validate_start_end_dates, hs, isError]
    | some ds =>
      cases he : parseDate endS with
      | none =>
        constructor
        · intro h
          exact Or.inr (Or.inl rfl)
        · intro h
          simp [validate_start_end_dates, hs, he, isError]
      | some de =>
        have hval : validate_start_end_dates startS endS now
            = if toOrdinal de ≤ toOrdinal ds then
                Except.error "Start date must be before end date"
              else if midnightLE ds now then
                Except.error "Start date must be in the future"
              else Except.ok (startS, endS) := by
          unfold validate_start_end_dates
          rw [hs, he]
        rw [hval]
        constructor
        · intro h
          refine Or.inr (Or.inr ⟨ds, de, rfl, rfl, ?_⟩)
          by_cases h1 : toOrdinal de ≤ toOrdinal ds
          · exact Or.inl h1
          · rw [if_neg h1] at h
            by_cases h2 : midnightLE ds now = true
            · exact Or.inr ((midnightLE_iff ds now).mp h2)
            · rw [if_neg h2] at h
              simp [isError] at h
        · intro hdisj
          rcases hdisj with hcn | hcn | ⟨ds', de', hds', hde', hcond⟩
          · exact absurd hcn (by simp)
          · exact absurd hcn (by simp)
          · simp only [Option.some.injEq] at hds' hde'
            subst hds'
            subst hde'
            by_cases h1 : toOrdinal de ≤ toOrdinal ds
            · rw [if_pos h1]
              rfl
            · rw [if_neg h1]
              rcases hcond with hc | hc
              · exact absurd hc h1
              · have h2 : midnightLE ds now = true := by
                  rw [midnightLE_iff]
                  exact hc
                rw [if_pos h2]
                rfl
  · intro ds hds heq
    cases he : parseDate endS with
    | none => simp [validate_start_end_dates, hds, he, isError]
    | some de =>
      simp only [validate_start_end_dates, hds, he]
      by_cases h1 : toOrdinal de ≤ toOrdinal ds
      · rw [if_pos h1]
        rfl
      · rw [if_neg h1]
        have h2 : midnightLE ds now = true := by
          rw [midnightLE_iff]
          omega
        rw [if_pos h2]
        rfl

/-- Claim C7 witness: a start date equal to the current day is rejected. -/
theorem C7_witness :
    parseDate "0005-01-10" = some ⟨5, 1, 10⟩ ∧
    toOrdinal ⟨5, 1, 10⟩ = momentY5Jan10.dayOrdinal ∧
    isError (validate_start_end_dates "0005-01-10" "0005-01-12" momentY5Jan10) = true :=
  ⟨by decide, by decide,
    (C7_validator_failure_conditions "0005-01-10" "0005-01-12" momentY5Jan10).2
      ⟨5, 1, 10⟩ (by decide) (by decide)⟩

/-! ## Claim C9 -/

/-- Claim C9: validate_place_type is idempotent on accepted inputs - every
output it produces (an alias-table value, or an input already equal to one)
is itself accepted and mapped to itself. -/
theorem C9_validate_place_type_idempotent (s t : String)
    (h : validate_place_type s = some t) : validate_place_type t = some t := by
  have ht : t ∈ valid_types := by
    simp only [validate_place_type] at h
    split at h
    · rename_i v hl
      simp only [Option.some.injEq] at h
      subst h
      exact lookup_snd_mem _ _ _ hl
    · rename_i hl
      split at h
      · rename_i hmem
        simp only [Option.some.injEq] at h
        subst h
        exact hmem
      · exact absurd h (by simp)
  fin_cases ht <;> decide

/-- Claim C9 witness: the theorem applied to the accepted input "hiking",
whose output "park" is again accepted and fixed. -/
theorem C9_witness :
    validate_place_type "hiking" = some "park" ∧
    validate_place_type "park" = some "park" :=
  ⟨by decide, C9_validate_place_type_idempotent "hiking" "park" (by decide)⟩

/-! ## Claim C10 -/

theorem applyExtras_rating (d : PlaceData) (p : Place) :
    (applyExtras d p).rating = p.rating := by
  unfold applyExtras applyPhoto applyOpenNow applyGeometry
  split <;> split <;> split <;> rfl

theorem applyExtras_price_level (d : PlaceData) (p : Place) :
    (applyExtras d p).price_level = p.price_level := by
  unfold applyExtras applyPhoto applyOpenNow applyGeometry
  split <;> split <;> split <;> rfl

theorem parse_single_place_ok_shape {d : PlaceData} {p : Place}
    (h : parse_single_place d = .ok (some p)) :
    p.rating = d.rating ∧ p.price_level = d.price_level ∧
    (ratingInRange d.rating && priceLevelInRange d.price_level) = true := by
  unfold parse_single_place at h
  split at h
  all_goals try exact absurd h (by simp)
  rename_i pid nm hpid hnm
  cases hc : Place.construct pid nm (d.vicinity.getD "") d.rating
      (d.user_ratings_total.getD 0) d.price_level (d.types.getD []) none with
  | error err =>
    rw [hc] at h
    exact absurd h (by simp)
  | ok p0 =>
    rw [hc] at h
    simp only [Except.ok.injEq, Option.some.injEq] at h
    subst h
    unfold Place.construct at hc
    split at hc
    · rename_i hck
      simp only [Except.ok.injEq] at hc
      subst hc
      refine ⟨?_, ?_, hck⟩
      · rw [applyExtras_rating]
      · rw [applyExtras_price_level]
    · exact absurd hc (by simp)

theorem placeRecordOutcome_none {d : PlaceData}
    (h : (ratingInRange d.rating && priceLevelInRange d.price_level) = false) :
    placeRecordOutcome d = none := by
  unfold placeRecordOutcome
  cases hpid : d.place_id with
  | none =>
    unfold parse_single_place
    rw [hpid]
  | some pid =>
    cases hnm : d.name with
    | none =>
      unfold parse_single_place
      rw [hpid, hnm]
    | some nm =>
      unfold parse_single_place
      rw [hpid, hnm]
      unfold Place.construct
      rw [h]
      rfl

/-- Claim C10: every Place produced by the parsing pipeline has a rating in
the range 0 to 5 when present and a price level in the range 0 to 4 when
present, and an upstream record violating either range contributes nothing
to the batch output (the record is dropped in its entirety while the rest of
the batch is kept). -/
theorem C10_place_range_invariants (data : PlacesResponse) :
    (∀ p ∈ parse_places_response data,
        (∀ r, p.rating = some r → 0 ≤ r ∧ r ≤ 5) ∧
        (∀ l, p.price_level = some l → 0 ≤ l ∧ l ≤ 4)) ∧
    (∀ d pre rest,
        (ratingInRange d.rating && priceLevelInRange d.price_level) = false →
        parse_places_response ⟨pre ++ d :: rest⟩ = parse_places_response ⟨pre ++ rest⟩) := by
  constructor
  · intro p hp
    obtain ⟨d, hd, hout⟩ := List.mem_filterMap.mp hp
    have hok : parse_single_place d = .ok (some p) := by
      unfold placeRecordOutcome at hout
      split at hout
      · rename_i p' heq
        simp only [Option.some.injEq] at hout
        subst hout
        exact heq
      · exact absurd hout (by simp)
    obtain ⟨hr, hl, hck⟩ := parse_single_place_ok_shape hok
    simp only [Bool.and_eq_true] at hck
    constructor
    · intro r hsome
      rw [hr] at hsome
      have hall := hck.1
      rw [ratingInRange, hsome] at hall
      simpa using hall
    · intro l hsome
      rw [hl] at hsome
      have hall := hck.2
      rw [priceLevelInRange, hsome] at hall
      simpa using hall
  · intro d pre rest h
    simp only [parse_places_response, List.filterMap_append, List.filterMap_cons,
      placeRecordOutcome_none h]

/-- Claim C10 witness: a record with rating 7 is dropped whole while the rest
of the batch parses, and the surviving places satisfy the range bounds. -/
theorem C10_witness :
    (ratingInRange placeBadRating.rating && priceLevelInRange placeBadRating.price_level)
        = false ∧
    parse_places_response ⟨[] ++ placeBadRating :: [placeGoodData]⟩
        = parse_places_response ⟨[] ++ [placeGoodData]⟩ := by
  refine ⟨by decide, ?_⟩
  exact (C10_place_range_invariants ⟨[placeGoodData]⟩).2 placeBadRating [] [placeGoodData]
    (by decide)

/-! ## Claim C1 -/

/-- Claim C1: for every parsed batch and every combination of the optional
filters, search_places returns at most 20 places, sorted by rating in
descending order with an absent rating ordered as 0 (the ratingKey), and the
sort is stable: for each rating value, the places carrying it appear in the
sorted list exactly in their filtered-batch (upstream) order. -/
theorem C1_sorted_truncated_stable (fetched : List Place) (mr : Option Rat)
    (pl : Option Int) :
    (search_places_post fetched mr pl).length ≤ 20 ∧
    (search_places_post fetched mr pl).Pairwise
      (fun a b => ratingKey b ≤ ratingKey a) ∧
    ∀ r : Rat,
      ((searchFilterStage fetched mr pl).mergeSort ratingSortLE).filter
          (fun p => ratingKey p == r)
        = (searchFilterStage fetched mr pl).filter (fun p => ratingKey p == r) := by
  refine ⟨?_, ?_, fun r => mergeSort_rating_stable _ r⟩
  · simp only [search_places_post, List.length_take]
    omega
  · exact List.Pairwise.sublist (List.take_sublist _ _) (mergeSort_rating_sorted _)

/-! ## Claim C5 -/

/-- Claim C5 counterexample: with min_rating 0.0 provided, the claim says the
value is clamped to 1.0 and rating-less places are dropped; but the source's
truthiness test skips both the clamp and the filter, so a place with no
rating is returned. -/
theorem C5_counterexample :
    ¬ ∀ p ∈ search_places_post [pNoRating] (some 0) none,
        ∃ r, p.rating = some r ∧ clampRating 0 ≤ r := by
  intro hall
  have hres : search_places_post [pNoRating] (some 0) none = [pNoRating] := by
    rw [search_places_post_singleton]
    decide
  obtain ⟨r, hr, _⟩ := hall pNoRating (by rw [hres]; exact List.mem_singleton.mpr rfl)
  simp [pNoRating] at hr

/-- Claim C5 as amended: whenever a NONZERO min_rating is provided, it is
clamped into the range 1 to 5 and every returned place has a present rating
at least the clamped bound (places with absent or lower rating are dropped);
a provided min_rating of 0.0 is ignored entirely, behaving exactly like an
absent filter. -/
theorem C5_min_rating_nonzero_filter (fetched : List Place) (m : Rat)
    (pl : Option Int) (hm : m ≠ 0) :
    (∀ p ∈ search_places_post fetched (some m) pl,
        ∃ r, p.rating = some r ∧ clampRating m ≤ r) ∧
    (∀ pl2 : Option Int,
      search_places_post fetched (some 0) pl2 = search_places_post fetched none pl2) := by
  constructor
  · intro p hp
    have hstage := mem_search_places_post hp
    have hclamp : clampMinRatingParam (some m) = some (clampRating m) := by
      simp [clampMinRatingParam, hm]
    rw [searchFilterStage, hclamp] at hstage
    have hmem2 : p ∈ applyMinRatingFilter (some (clampRating m)) fetched :=
      (applyPriceLevelFilter_sublist _ _).subset hstage
    have hcne : ¬ clampRating m = 0 := by
      have h1 : (1 : Rat) ≤ clampRating m :=
        le_min (le_max_right m 1) (by norm_num)
      intro heq
      rw [heq] at h1
      norm_num at h1
    simp only [applyMinRatingFilter, beq_iff_eq, if_neg hcne] at hmem2
    rw [List.mem_filter] at hmem2
    obtain ⟨-, hpred⟩ := hmem2
    cases hr : p.rating with
    | none =>
      rw [hr] at hpred
      simp at hpred
    | some r =>
      rw [hr] at hpred
      simp only [Bool.and_eq_true, decide_eq_true_eq] at hpred
      exact ⟨r, rfl, hpred.2⟩
  · intro pl2
    simp [search_places_post, searchFilterStage, clampMinRatingParam,
      applyMinRatingFilter]

/-- Claim C5 witness: the amended theorem applied at a concrete nonzero
min_rating. -/
theorem C5_witness :
    (4 : Rat) ≠ 0 ∧
    (∀ p ∈ search_places_post [pR4] (some 4) none,
        ∃ r, p.rating = some r ∧ clampRating 4 ≤ r) ∧
    (∀ pl2 : Option Int,
      search_places_post [pR4] (some 0) pl2 = search_places_post [pR4] none pl2) := by
  refine ⟨by decide, ?_, ?_⟩
  · exact (C5_min_rating_nonzero_filter [pR4] 4 none (by decide)).1
  · exact (C5_min_rating_nonzero_filter [pR4] 4 none (by decide)).2

/-! ## Claim C8 -/

/-- Claim C8: whenever a price_level filter is provided (including 0), it is
clamped into the range 0 to 4 and every returned place reports exactly the
clamped price level (in particular a place with no reported price level is
never returned); moreover, with no rating filter and a batch short enough
not to be truncated, the result holds exactly the batch places whose price
level equals the clamped value. -/
theorem C8_price_level_filter (fetched : List Place) (mr : Option Rat) (v : Int) :
    (∀ p ∈ search_places_post fetched mr (some v),
        p.price_level = some (clampPriceLevel v)) ∧
    (fetched.length ≤ 20 →
      ∀ p, p ∈ search_places_post fetched none (some v) ↔
        p ∈ fetched ∧ p.price_level = some (clampPriceLevel v)) := by
  constructor
  · intro p hp
    have hstage := mem_search_places_post hp
    have hrw : searchFilterStage fetched mr (some v)
        = (applyMinRatingFilter (clampMinRatingParam mr) fetched).filter
            (fun p => p.price_level == some (clampPriceLevel v)) := by
      simp [searchFilterStage, applyPriceLevelFilter]
    rw [hrw, List.mem_filter] at hstage
    simpa using hstage.2
  · intro hlen p
    have hfil : searchFilterStage fetched none (some v)
        = fetched.filter (fun p => p.price_level == some (clampPriceLevel v)) := by
      simp [searchFilterStage, clampMinRatingParam, applyMinRatingFilter,
        applyPriceLevelFilter]
    have hlen2 :
        ((searchFilterStage fetched none (some v)).mergeSort ratingSortLE).length
          ≤ 20 := by
      rw [List.length_mergeSort, hfil]
      have hfs := (List.filter_sublist
        (p := fun p => p.price_level == some (clampPriceLevel v)) fetched).length_le
      omega
    rw [search_places_post, List.take_of_length_le hlen2, List.mem_mergeSort, hfil,
      List.mem_filter]
    simp

/-- Claim C8 witness: the theorem applied at a concrete one-place batch. -/
theorem C8_witness :
    ([pPL2].length ≤ 20) ∧
    (∀ p ∈ search_places_post [pPL2] none (some 2),
        p.price_level = some (clampPriceLevel 2)) ∧
    (∀ p, p ∈ search_places_post [pPL2] none (some 2) ↔
        p ∈ [pPL2] ∧ p.price_level = some (clampPriceLevel 2)) :=
  ⟨by decide, (C8_price_level_filter [pPL2] none 2).1,
    fun p => (C8_price_level_filter [pPL2] none 2).2 (by decide) p⟩

end ActivityPlanning
